import Mathlib

/-!
Verification development for the kafka-consumer image-processing service.

The Go source is shallowly embedded: protobuf message types become Lean
structures, the image library (disintegration/imaging) is modelled by an
inductive image value recording each library call together with an exact
dimension semantics, effectful code (HTTP download, S3 upload, metrics)
becomes explicit environments and effect traces, and float64 arithmetic is
modelled by exact rationals.
-/

namespace KafkaConsumer

/- ### Command model (proto/image_command.proto, as used by the Go code) -/

/-- CommandType enum of the protobuf schema. -/
inductive CommandType where
  | unspecified
  | resize
  | filter
  | transform
  | analyze
  | crop
  | removeBackground
  deriving DecidableEq, Repr

/-- pb.ResizeParameters. `width`/`height` are int32 fields; their values are
modelled as integers (all inputs considered here stay far inside int32
range). `MaintainAspectRatio` is a bool field. -/
structure ResizeParameters where
  width : Int
  height : Int
  maintainAspect : Bool
  deriving DecidableEq, Repr

/-- pb.FilterParameters. `Intensity` is a float64 field, modelled as an exact
rational. -/
structure FilterParameters where
  filterType : String
  intensity : ℚ
  deriving DecidableEq, Repr

/-- pb.TransformParameters. -/
structure TransformParameters where
  rotationDegrees : ℚ
  flipHorizontal : Bool
  flipVertical : Bool
  deriving DecidableEq, Repr

/-- pb.AnalyzeParameters. -/
structure AnalyzeParameters where
  models : List String
  deriving DecidableEq, Repr

/-- pb.CropParameters (int32 fields). -/
structure CropParameters where
  x : Int
  y : Int
  width : Int
  height : Int
  deriving DecidableEq, Repr

/-- pb.RemoveBackgroundParameters. -/
structure RemoveBackgroundParameters where
  outputFormat : String
  highQuality : Bool
  deriving DecidableEq, Repr

/-- The protobuf oneof `parameters` of pb.ImageCommand: at most one variant
is present; `none` models a nil oneof. -/
inductive CommandParams where
  | none
  | resize (p : ResizeParameters)
  | filter (p : FilterParameters)
  | transform (p : TransformParameters)
  | analyze (p : AnalyzeParameters)
  | crop (p : CropParameters)
  | removeBackground (p : RemoveBackgroundParameters)
  deriving DecidableEq, Repr

/-- pb.ImageCommand. -/
structure ImageCommand where
  id : String
  command : CommandType
  imageUrl : String
  parameters : CommandParams
  deriving DecidableEq, Repr

/-- cmd.GetResize(): the resize variant if active, nil otherwise. -/
def ImageCommand.getResize (c : ImageCommand) : Option ResizeParameters :=
  match c.parameters with
  | .resize p => some p
  | _ => Option.none

/-- cmd.GetFilter(). -/
def ImageCommand.getFilter (c : ImageCommand) : Option FilterParameters :=
  match c.parameters with
  | .filter p => some p
  | _ => Option.none

/-- cmd.GetTransform(). -/
def ImageCommand.getTransform (c : ImageCommand) : Option TransformParameters :=
  match c.parameters with
  | .transform p => some p
  | _ => Option.none

/-- cmd.GetCrop(). -/
def ImageCommand.getCrop (c : ImageCommand) : Option CropParameters :=
  match c.parameters with
  | .crop p => some p
  | _ => Option.none

/-- cmd.Command.String(): the generated protobuf enum-name printer. -/
def commandTypeString : CommandType → String
  | .unspecified => "COMMAND_TYPE_UNSPECIFIED"
  | .resize => "COMMAND_TYPE_RESIZE"
  | .filter => "COMMAND_TYPE_FILTER"
  | .transform => "COMMAND_TYPE_TRANSFORM"
  | .analyze => "COMMAND_TYPE_ANALYZE"
  | .crop => "COMMAND_TYPE_CROP"
  | .removeBackground => "COMMAND_TYPE_REMOVE_BACKGROUND"

/-- A command is consistent when its parameter variant, if present, is the
variant selected by its command type (spec section 3 invariant). -/
def consistentParams (c : ImageCommand) : Bool :=
  match c.parameters with
  | .none => true
  | .resize _ => c.command = .resize
  | .filter _ => c.command = .filter
  | .transform _ => c.command = .transform
  | .analyze _ => c.command = .analyze
  | .crop _ => c.command = .crop
  | .removeBackground _ => c.command = .removeBackground

/- ### Model of the disintegration/imaging library

An `Image` value records the source dimensions and every library call applied
to it; `Image.dims` gives the output dimensions the library produces for
each call.
The Go library computes with float64; the dimension formulas below use exact
rationals for the same expressions. -/

/-- Go `int(math.Max(1.0, math.Floor(tmp+0.5)))` applied to a nonnegative
rational: round half up, then clamp to at least 1. -/
def roundAtLeastOne (q : ℚ) : Int :=
  max 1 (Int.floor (q + 1/2))

/-- Output dimensions of `imaging.Resize(img, w, h, filter)` given source
dimensions `(sw, sh)`: negative targets or a zero-by-zero target or an empty
source give the empty image; a single zero target dimension is recomputed
from the source aspect ratio (minimum 1 pixel). -/
def resizeDims (src : Int × Int) (w h : Int) : Int × Int :=
  if w < 0 ∨ h < 0 then (0, 0)
  else if w = 0 ∧ h = 0 then (0, 0)
  else if src.1 ≤ 0 ∨ src.2 ≤ 0 then (0, 0)
  else
    (if w = 0 then roundAtLeastOne ((h * src.1 : Int) / (src.2 : ℚ)) else w,
     if h = 0 then roundAtLeastOne ((w * src.2 : Int) / (src.1 : ℚ)) else h)

/-- Output dimensions of `imaging.Fit(img, w, h, filter)`: empty on
nonpositive targets or empty source; unchanged when the source already fits;
otherwise the scale factor is chosen from the larger aspect ratio and the
reduced target is delegated to `imaging.Resize` (Go `int(...)` truncates the
nonnegative float, i.e. takes the floor). -/
def fitDims (src : Int × Int) (w h : Int) : Int × Int :=
  if w ≤ 0 ∨ h ≤ 0 then (0, 0)
  else if src.1 ≤ 0 ∨ src.2 ≤ 0 then (0, 0)
  else if src.1 ≤ w ∧ src.2 ≤ h then src
  else if (src.1 : ℚ) / (src.2 : ℚ) > (w : ℚ) / (h : ℚ) then
    resizeDims src w (Int.floor ((w * src.2 : Int) / (src.1 : ℚ)))
  else
    resizeDims src (Int.floor ((h * src.1 : Int) / (src.2 : ℚ))) h

/-- Output dimensions of `imaging.Crop(img, image.Rect(x, y, x+w, y+h))`:
the size of the intersection of the rectangle with the image bounds (the Go
callers only build rectangles with `w, h > 0`, so `image.Rect`
canonicalisation is the identity; decoded images have Min = (0,0)). -/
def cropDims (src : Int × Int) (x y w h : Int) : Int × Int :=
  let x0 := max x 0
  let y0 := max y 0
  let x1 := min (x + w) src.1
  let y1 := min (y + h) src.2
  if x0 < x1 ∧ y0 < y1 then (x1 - x0, y1 - y0) else (0, 0)

/-- Output dimensions of `imaging.Rotate(img, deg, bg)`. The library first
normalises the angle into [0, 360) and special-cases the right angles; for
any other angle it computes a floating-point bounding box, which is not
modelled here (no claim in this development depends on those dimensions), so
the source dimensions are carried through unchanged in that case. -/
def rotateDims (src : Int × Int) (deg : ℚ) : Int × Int :=
  let a := deg - 360 * (Int.floor (deg / 360) : ℚ)
  if a = 0 ∨ a = 180 then src
  else if a = 90 ∨ a = 270 then (src.2, src.1)
  else src

/-- An in-memory image: the decoded source together with the library calls
applied to it. Each constructor records the arguments of one
disintegration/imaging call. -/
inductive Image where
  | source (width height : Int)
  | resized (base : Image) (w h : Int)
  | fitted (base : Image) (w h : Int)
  | cropped (base : Image) (x y w h : Int)
  | blurred (base : Image) (sigma : ℚ)
  | sharpened (base : Image) (sigma : ℚ)
  | grayscaled (base : Image)
  | inverted (base : Image)
  | brightnessAdjusted (base : Image) (adjustment : ℚ)
  | contrastAdjusted (base : Image) (adjustment : ℚ)
  | saturationAdjusted (base : Image) (adjustment : ℚ)
  | rotated (base : Image) (degrees : ℚ)
  | flippedH (base : Image)
  | flippedV (base : Image)
  deriving DecidableEq, Repr

/-- Dimension semantics of the imaging library: blur, sharpen, grayscale,
invert, the three adjustments and both flips preserve the canvas; resize,
fit, crop and rotate follow the formulas above. -/
def Image.dims : Image → Int × Int
  | .source w h => (w, h)
  | .resized b w h => resizeDims b.dims w h
  | .fitted b w h => fitDims b.dims w h
  | .cropped b x y w h => cropDims b.dims x y w h
  | .blurred b _ => b.dims
  | .sharpened b _ => b.dims
  | .grayscaled b => b.dims
  | .inverted b => b.dims
  | .brightnessAdjusted b _ => b.dims
  | .contrastAdjusted b _ => b.dims
  | .saturationAdjusted b _ => b.dims
  | .rotated b deg => rotateDims b.dims deg
  | .flippedH b => b.dims
  | .flippedV b => b.dims

/-- img.Bounds().Dx(). -/
def Image.width (i : Image) : Int := i.dims.1

/-- img.Bounds().Dy(). -/
def Image.height (i : Image) : Int := i.dims.2

/- ### Image operations (internal/usecase/image_processor.go and the older
variant of the same file kept in the repository) -/

/-- RealImageProcessor.processResize (identical in both variants of the
usecase file). -/
def processResize (img : Image) : Option ResizeParameters → Except String Image
  | Option.none => .error "resize parameters required"
  | some params =>
    let width := params.width
    let height := params.height
    if width ≤ 0 ∧ height ≤ 0 then
      .error "at least one of width or height must be positive"
    else if params.maintainAspect ∨ width = 0 ∨ height = 0 then
      if width = 0 then .ok (.resized img 0 height)
      else if height = 0 then .ok (.resized img width 0)
      else .ok (.fitted img width height)
    else
      .ok (.resized img width height)

/-- The brightness/contrast/saturation adjustment computed by the current
usecase file: `adjustment := intensity*200 - 100`. -/
def filterAdjustment (intensity : ℚ) : ℚ := intensity * 200 - 100

/-- The brightness/contrast/saturation adjustment computed by the older
usecase variant: `intensity*100 - 50`. -/
def filterAdjustmentOld (intensity : ℚ) : ℚ := intensity * 100 - 50

/-- RealImageProcessor.processFilter of the current usecase file. A
nonpositive intensity is replaced by the default 1.0 before use. -/
def processFilter (img : Image) : Option FilterParameters → Except String Image
  | Option.none => .error "filter parameters required"
  | some params =>
    let intensity := if params.intensity ≤ 0 then 1 else params.intensity
    match params.filterType with
    | "blur" => .ok (.blurred img (3 * intensity))
    | "sharpen" => .ok (.sharpened img (3 * intensity))
    | "grayscale" => .ok (.grayscaled img)
    | "invert" => .ok (.inverted img)
    | "brightness" => .ok (.brightnessAdjusted img (filterAdjustment intensity))
    | "contrast" => .ok (.contrastAdjusted img (filterAdjustment intensity))
    | "saturation" => .ok (.saturationAdjusted img (filterAdjustment intensity))
    | ft => .error ("unknown filter type: " ++ ft)

/-- RealImageProcessor.processFilter of the older usecase variant; it differs
from the current one only in the linear adjustment constants. -/
def processFilterOld (img : Image) : Option FilterParameters → Except String Image
  | Option.none => .error "filter parameters required"
  | some params =>
    let intensity := if params.intensity ≤ 0 then 1 else params.intensity
    match params.filterType with
    | "blur" => .ok (.blurred img (3 * intensity))
    | "sharpen" => .ok (.sharpened img (3 * intensity))
    | "grayscale" => .ok (.grayscaled img)
    | "invert" => .ok (.inverted img)
    | "brightness" => .ok (.brightnessAdjusted img (filterAdjustmentOld intensity))
    | "contrast" => .ok (.contrastAdjusted img (filterAdjustmentOld intensity))
    | "saturation" => .ok (.saturationAdjusted img (filterAdjustmentOld intensity))
    | ft => .error ("unknown filter type: " ++ ft)

/-- RealImageProcessor.processTransform (identical in both variants): nil
parameters return the input image unchanged; otherwise rotate (skipped for
angle 0), then flip horizontally, then flip vertically. -/
def processTransform (img : Image) : Option TransformParameters → Except String Image
  | Option.none => .ok img
  | some params =>
    let r1 := if params.rotationDegrees ≠ 0 then .rotated img params.rotationDegrees else img
    let r2 := if params.flipHorizontal then .flippedH r1 else r1
    let r3 := if params.flipVertical then .flippedV r2 else r2
    .ok r3

/-- RealImageProcessor.processCrop (identical in both variants). -/
def processCrop (img : Image) : Option CropParameters → Except String Image
  | Option.none => .error "crop parameters required"
  | some params =>
    let x := params.x
    let y := params.y
    let width := params.width
    let height := params.height
    if width ≤ 0 ∨ height ≤ 0 then
      .error "crop width and height must be positive"
    else if x < 0 ∨ y < 0 ∨ x + width > img.width ∨ y + height > img.height then
      .error "crop region out of bounds"
    else
      .ok (.cropped img x y width height)

/- ### The Process dispatch with its side effects -/

/-- One metrics emission: `metrics.RecordMessageProcessed(command, status)`
or `metrics.ObserveMessageProcessingDuration(command, seconds)`. -/
inductive MetricEvent where
  | processed (command status : String)
  | duration (command : String)
  deriving DecidableEq, Repr

/-- An observable side effect of a Process call, in chronological order. -/
inductive Effect where
  | httpDownload (url : String)
  | s3Upload (key : String)
  | fileSave (path : String)
  | metric (ev : MetricEvent)
  deriving DecidableEq, Repr

/-- usecase.ProcessingResult of the current (S3) usecase file. Wall-clock
durations are not modelled; ProcessingTimeMs is recorded as 0. -/
structure ProcessingResult where
  commandID : String
  success : Bool
  outputUrl : String
  errorMessage : String
  processingTimeMs : Int
  deriving DecidableEq, Repr

/-- External collaborators of RealImageProcessor.Process (current variant):
the HTTP image download, the PNG encoder and the S3 upload, each abstracted
by its outcome. -/
structure ProcessEnv where
  download : String → Except String Image
  encodePNG : Image → Except String Unit
  upload : String → Except String String

/-- The straight-line tail of RealImageProcessor.Process after the command
switch (lines 139-183 of the current usecase file): handle an operation
error, encode to PNG, upload under the key `id ++ ".png"`, and emit the
duration and count metrics on full success. -/
def processFinish (env : ProcessEnv) (cmdId ct url : String)
    (base : ProcessingResult) (opResult : Except String Image) :
    ProcessingResult × Option String × List Effect :=
  match opResult with
  | .error e =>
    ({ base with success := false, errorMessage := e },
     some e,
     [.httpDownload url, .metric (.processed ct "error")])
  | .ok processedImg =>
    match env.encodePNG processedImg with
    | .error e =>
      ({ base with success := false, errorMessage := "encode failed: " ++ e },
       some e,
       [.httpDownload url, .metric (.processed ct "error")])
    | .ok _ =>
      let key := cmdId ++ ".png"
      match env.upload key with
      | .error e =>
        ({ base with success := false, errorMessage := "upload failed: " ++ e },
         some e,
         [.httpDownload url, .s3Upload key, .metric (.processed ct "error")])
      | .ok outUrl =>
        ({ base with success := true, outputUrl := outUrl },
         Option.none,
         [.httpDownload url, .s3Upload key,
          .metric (.duration ct), .metric (.processed ct "success")])

/-- RealImageProcessor.Process of internal/usecase/image_processor.go:
validate id and image_url, download, dispatch on the command type, then the
common tail `processFinish`. Returns the structured result, the raw error
handed back to the caller, and the effect trace. -/
def Process (env : ProcessEnv) (cmd : ImageCommand) :
    ProcessingResult × Option String × List Effect :=
  let ct := commandTypeString cmd.command
  let base : ProcessingResult := ⟨cmd.id, false, "", "", 0⟩
  if cmd.id = "" then
    ({ base with success := false, errorMessage := "command ID is required" },
     some "command ID is required",
     [.metric (.processed ct "error")])
  else if cmd.imageUrl = "" then
    ({ base with success := false, errorMessage := "image URL is required" },
     some "image URL is required",
     [.metric (.processed ct "error")])
  else
    match env.download cmd.imageUrl with
    | .error e =>
      ({ base with success := false, errorMessage := "download failed: " ++ e },
       some e,
       [.httpDownload cmd.imageUrl, .metric (.processed ct "error")])
    | .ok img =>
      if cmd.command = .analyze then
        ({ base with success := true, outputUrl := "" },
         Option.none,
         [.httpDownload cmd.imageUrl, .metric (.processed ct "success")])
      else
        let opResult : Except String Image :=
          match cmd.command with
          | .resize => processResize img cmd.getResize
          | .filter => processFilter img cmd.getFilter
          | .transform => processTransform img cmd.getTransform
          | .crop => processCrop img cmd.getCrop
          | .removeBackground => .ok (.grayscaled img)
          | _ => .error ("unknown command type: " ++ ct)
        processFinish env cmd.id ct cmd.imageUrl base opResult

/-- ProcessingResult of the older (local filesystem) usecase variant. -/
structure ProcessingResultOld where
  commandID : String
  success : Bool
  outputPath : String
  errorMessage : String
  processingTimeMs : Int
  deriving DecidableEq, Repr

/-- External collaborators of the older Process variant: the HTTP download
and `imaging.Save` to the output directory. -/
structure ProcessOldEnv where
  download : String → Except String Image
  save : String → Except String Unit
  outputDir : String

/-- RealImageProcessor.Process of the older usecase variant. It differs from
the current one in that a validation failure returns a nil result (only the
raw error), the filter path uses the older adjustment constants, and success
saves to `outputDir/id_processed.png` instead of uploading to S3. -/
def ProcessOld (env : ProcessOldEnv) (cmd : ImageCommand) :
    Option ProcessingResultOld × Option String × List Effect :=
  let ct := commandTypeString cmd.command
  let base : ProcessingResultOld := ⟨cmd.id, false, "", "", 0⟩
  if cmd.id = "" then
    (Option.none, some "command ID is required", [.metric (.processed ct "error")])
  else if cmd.imageUrl = "" then
    (Option.none, some "image URL is required", [.metric (.processed ct "error")])
  else
    match env.download cmd.imageUrl with
    | .error e =>
      (some { base with success := false, errorMessage := "download failed: " ++ e },
       some e,
       [.httpDownload cmd.imageUrl, .metric (.processed ct "error")])
    | .ok img =>
      if cmd.command = .analyze then
        (some { base with success := true, outputPath := "" },
         Option.none,
         [.httpDownload cmd.imageUrl, .metric (.processed ct "success")])
      else
        let opResult : Except String Image :=
          match cmd.command with
          | .resize => processResize img cmd.getResize
          | .filter => processFilterOld img cmd.getFilter
          | .transform => processTransform img cmd.getTransform
          | .crop => processCrop img cmd.getCrop
          | .removeBackground => .ok (.grayscaled img)
          | _ => .error ("unknown command type: " ++ ct)
        match opResult with
        | .error e =>
          (some { base with success := false, errorMessage := e },
           some e,
           [.httpDownload cmd.imageUrl, .metric (.processed ct "error")])
        | .ok _processedImg =>
          let path := env.outputDir ++ "/" ++ cmd.id ++ "_processed.png"
          match env.save path with
          | .error e =>
            (some { base with success := false, errorMessage := "save failed: " ++ e },
             some e,
             [.httpDownload cmd.imageUrl, .fileSave path,
              .metric (.processed ct "error")])
          | .ok _ =>
            (some { base with success := true, outputPath := path },
             Option.none,
             [.httpDownload cmd.imageUrl, .fileSave path,
              .metric (.duration ct), .metric (.processed ct "success")])

/-- Number of `RecordMessageProcessed` emissions in a trace. -/
def countProcessed (tr : List Effect) : Nat :=
  tr.countP fun e =>
    match e with
    | .metric (.processed _ _) => true
    | _ => false

/-- Number of `ObserveMessageProcessingDuration` emissions in a trace. -/
def countDuration (tr : List Effect) : Nat :=
  tr.countP fun e =>
    match e with
    | .metric (.duration _) => true
    | _ => false

/-- Whether a trace contains an HTTP image download. -/
def hasDownload (tr : List Effect) : Bool :=
  tr.any fun e =>
    match e with
    | .httpDownload _ => true
    | _ => false

/-- Whether a trace stores an artifact (S3 upload or local save). -/
def storesArtifact (tr : List Effect) : Bool :=
  tr.any fun e =>
    match e with
    | .s3Upload _ => true
    | .fileSave _ => true
    | _ => false

/- ### Decoder (internal/delivery/queue/decoder.go) and the JSON producer
encoding (the kafka producer file) -/

/-- Message format preference of the decoder/producer. -/
inductive MessageFormat where
  | json
  | protobuf
  deriving DecidableEq, Repr

/-- An untyped JSON value as produced by `json.Unmarshal` into
`map[string]interface{}`: strings, numbers (float64, modelled exactly as
rationals), booleans, arrays, nested objects and null. -/
inductive JsonValue where
  | str (s : String)
  | num (q : ℚ)
  | bool (b : Bool)
  | arr (elems : List JsonValue)
  | obj (fields : List (String × JsonValue))
  | null

/-- The anonymous struct `json.Unmarshal` fills inside decodeJSON: `id`,
`command`, `image_url` as strings (absent keys give the zero value "") and
`parameters` as an untyped map (nil when the key is absent). -/
structure JsonCommand where
  id : String
  command : String
  imageUrl : String
  parameters : Option (List (String × JsonValue))

/-- Lookup in an unmarshalled JSON object (Go map indexing; keys of a JSON
object are unique, so first match suffices). -/
def lookupKey (m : List (String × JsonValue)) (k : String) : Option JsonValue :=
  match m with
  | [] => Option.none
  | (k', v) :: rest => if k' = k then some v else lookupKey rest k

/-- Go type assertion `v.(float64)` on a map value. -/
def asFloat : Option JsonValue → Option ℚ
  | some (.num q) => some q
  | _ => Option.none

/-- Go type assertion `v.(string)`. -/
def asString : Option JsonValue → Option String
  | some (.str s) => some s
  | _ => Option.none

/-- Go type assertion `v.(bool)`. -/
def asBool : Option JsonValue → Option Bool
  | some (.bool b) => some b
  | _ => Option.none

/-- Go type assertion `v.([]interface{})`. -/
def asArr : Option JsonValue → Option (List JsonValue)
  | some (.arr xs) => some xs
  | _ => Option.none

/-- Go conversion `int32(f)` for a float64 `f`: truncation toward zero (the
int32 wraparound for out-of-range floats is not modelled; every value
considered here is small). -/
def truncToInt (q : ℚ) : Int :=
  if q < 0 then -(Int.floor (-q)) else Int.floor q

/-- Decoder.decodeJSON after a successful `json.Unmarshal`: map the
loosely-typed payload onto a protobuf command. Each command branch reads only
the keys of its parameter variant, ignoring absent or wrong-typed keys; an
unrecognised command string gives UNSPECIFIED with no parameters. This
stage never fails. -/
def decodeJSONCmd (jc : JsonCommand) : ImageCommand :=
  let params := jc.parameters
  match jc.command with
  | "resize" =>
    { id := jc.id, imageUrl := jc.imageUrl, command := .resize,
      parameters :=
        match params with
        | Option.none => .none
        | some m =>
          .resize
            { width := ((asFloat (lookupKey m "width")).map truncToInt).getD 0,
              height := ((asFloat (lookupKey m "height")).map truncToInt).getD 0,
              maintainAspect := false } }
  | "filter" =>
    { id := jc.id, imageUrl := jc.imageUrl, command := .filter,
      parameters :=
        match params with
        | Option.none => .none
        | some m =>
          .filter
            { filterType := (asString (lookupKey m "filter_type")).getD "",
              intensity := (asFloat (lookupKey m "intensity")).getD 0 } }
  | "transform" =>
    { id := jc.id, imageUrl := jc.imageUrl, command := .transform,
      parameters :=
        match params with
        | Option.none => .none
        | some m =>
          .transform
            { rotationDegrees := (asFloat (lookupKey m "rotation_degrees")).getD 0,
              flipHorizontal := (asBool (lookupKey m "flip_horizontal")).getD false,
              flipVertical := (asBool (lookupKey m "flip_vertical")).getD false } }
  | "analyze" =>
    { id := jc.id, imageUrl := jc.imageUrl, command := .analyze,
      parameters :=
        match params with
        | Option.none => .none
        | some m =>
          .analyze
            { models :=
                ((asArr (lookupKey m "models")).getD []).filterMap fun v =>
                  match v with
                  | .str s => some s
                  | _ => Option.none } }
  | "crop" =>
    { id := jc.id, imageUrl := jc.imageUrl, command := .crop,
      parameters :=
        match params with
        | Option.none => .none
        | some m =>
          .crop
            { x := ((asFloat (lookupKey m "x")).map truncToInt).getD 0,
              y := ((asFloat (lookupKey m "y")).map truncToInt).getD 0,
              width := ((asFloat (lookupKey m "width")).map truncToInt).getD 0,
              height := ((asFloat (lookupKey m "height")).map truncToInt).getD 0 } }
  | "remove_background" =>
    { id := jc.id, imageUrl := jc.imageUrl, command := .removeBackground,
      parameters :=
        match params with
        | Option.none => .none
        | some m =>
          .removeBackground
            { outputFormat := (asString (lookupKey m "output_format")).getD "",
              highQuality := (asBool (lookupKey m "high_quality")).getD false } }
  | _ =>
    { id := jc.id, imageUrl := jc.imageUrl, command := .unspecified,
      parameters := .none }

/-- A raw Kafka payload, abstracted by how the only two parsers applied to it
react: `protoParse` is the outcome of `proto.Unmarshal` (protobuf can encode
any value of the message type, including any command/oneof combination) and
`jsonParse` the outcome of `json.Unmarshal` into the decodeJSON struct.
DecodeCommand inspects the bytes through these two parsers only. -/
structure RawData where
  protoParse : Option ImageCommand
  jsonParse : Option JsonCommand

/-- The decode errors DecodeCommand can return: the error of the failed
`json.Unmarshal` call, or the wrapping error "failed to decode message:
neither JSON nor Protobuf". -/
inductive DecodeError where
  | jsonUnmarshal
  | neitherFormat
  deriving DecidableEq, Repr

/-- Decoder.decodeJSON on raw bytes: fails exactly when `json.Unmarshal`
fails, and otherwise never errors. -/
def decodeJSONRaw (d : RawData) : Except DecodeError ImageCommand :=
  match d.jsonParse with
  | Option.none => .error .jsonUnmarshal
  | some jc => .ok (decodeJSONCmd jc)

/-- Decoder.DecodeCommand: with preferred format protobuf, try
`proto.Unmarshal` and on any error return the JSON decode outcome as-is;
with preferred format JSON, try the JSON decode first and fall back to
protobuf, reporting "neither JSON nor Protobuf" when both fail. -/
def DecodeCommand (preferred : MessageFormat) (d : RawData) :
    Except DecodeError ImageCommand :=
  if preferred = .protobuf then
    match d.protoParse with
    | some c => .ok c
    | Option.none => decodeJSONRaw d
  else
    match decodeJSONRaw d with
    | .ok c => .ok c
    | .error _ =>
      match d.protoParse with
      | some c => .ok c
      | Option.none => .error .neitherFormat

/-- commandTypeToString of the kafka producer file. -/
def commandTypeToString : CommandType → String
  | .resize => "resize"
  | .filter => "filter"
  | .transform => "transform"
  | .analyze => "analyze"
  | .crop => "crop"
  | .removeBackground => "remove_background"
  | .unspecified => "unspecified"

/-- Producer.encodeJSON followed by `json.Unmarshal` into the decodeJSON
struct: the producer writes `id`, `command` and `image_url`, and a
`parameters` object only for the resize, filter, transform and crop variants
(and only the keys listed in its switch; notably no `maintain_aspect_ratio`
and no flip keys). int32 fields are marshalled as JSON numbers and
unmarshalled as float64. -/
def encodeJSON (c : ImageCommand) : JsonCommand :=
  let params : List (String × JsonValue) :=
    match c.parameters with
    | .resize p => [("width", .num (p.width : ℚ)), ("height", .num (p.height : ℚ))]
    | .filter p => [("filter_type", .str p.filterType), ("intensity", .num p.intensity)]
    | .transform p => [("rotation_degrees", .num p.rotationDegrees)]
    | .crop p =>
      [("x", .num (p.x : ℚ)), ("y", .num (p.y : ℚ)),
       ("width", .num (p.width : ℚ)), ("height", .num (p.height : ℚ))]
    | _ => []
  { id := c.id,
    command := commandTypeToString c.command,
    imageUrl := c.imageUrl,
    parameters := if params.length > 0 then some params else Option.none }

/-- Text-form round trip: encode with the producer, decode with the JSON
decoder. -/
def roundTrip (c : ImageCommand) : ImageCommand :=
  decodeJSONCmd (encodeJSON c)

/- ### Consume loop (internal/delivery/queue/handler.go, and the older kafka
consumer variant kept in the repository) -/

/-- A fetched Kafka message; its payload is the raw-bytes abstraction used by
the decoder. -/
structure KafkaMessage where
  partition : Int
  offset : Int
  key : String
  value : RawData

/-- One iteration of Handler.processNextMessage, with its external calls
abstracted by their outcomes: the fetch, the processing of the decoded
command (ProcessAny), and the offset commit. -/
structure HandlerIterEnv where
  preferred : MessageFormat
  fetch : Except String KafkaMessage
  processErr : Option String
  commitErr : Option String

/-- What one handler iteration did: the commits it issued (in order), the
command it handed to the processor (if any), and its return value. -/
structure IterationOutcome where
  commits : List KafkaMessage
  dispatched : Option ImageCommand
  retErr : Option String

/-- Handler.processNextMessage: fetch (an error is returned with nothing
committed); decode (a decode error still commits the message and returns the
commit outcome); otherwise dispatch to the processor — whose error is only
logged — and commit the message. -/
def processNextMessage (env : HandlerIterEnv) : IterationOutcome :=
  match env.fetch with
  | .error e => ⟨[], Option.none, some e⟩
  | .ok msg =>
    match DecodeCommand env.preferred msg.value with
    | .error _ => ⟨[msg], Option.none, env.commitErr⟩
    | .ok cmd => ⟨[msg], some cmd, env.commitErr⟩

/-- models.ImageCommand of the older code: a loosely-typed JSON command. -/
structure ModelsImageCommand where
  id : String
  command : String
  imageUrl : String
  parameters : Option (List (String × JsonValue))

/-- A message fetched by the older consumer; its payload is abstracted by the
outcome of `json.Unmarshal` into models.ImageCommand. -/
structure OldKafkaMessage where
  partition : Int
  offset : Int
  key : String
  value : Option ModelsImageCommand

/-- External-call outcomes for one iteration of the older Consumer.Start
loop body. -/
structure OldConsumerIterEnv where
  fetch : Except String OldKafkaMessage
  processErr : Option String
  commitErr : Option String
  hasCallback : Bool

/-- What one old-consumer iteration did: commits issued, the command
processed (if any), and whether the processed-message callback fired. -/
structure OldIterationOutcome where
  commits : List OldKafkaMessage
  dispatched : Option ModelsImageCommand
  callbackFired : Bool

/-- The loop body of the older Consumer.Start (non-shutdown branch): a fetch
error is logged and the iteration ends with no commit; a JSON decode error
commits the message anyway; otherwise the command is processed (a processing
error is logged, a success fires the callback) and the message is
committed. -/
def oldConsumerIteration (env : OldConsumerIterEnv) : OldIterationOutcome :=
  match env.fetch with
  | .error _ => ⟨[], Option.none, false⟩
  | .ok msg =>
    match msg.value with
    | Option.none => ⟨[msg], Option.none, false⟩
    | some cmd =>
      match env.processErr with
      | some _ => ⟨[msg], some cmd, false⟩
      | Option.none => ⟨[msg], some cmd, env.hasCallback⟩

/- ### Theorems about the claims -/

/-- C10: for every TRANSFORM command whose TransformParams variant is absent,
the operation succeeds and returns the source image unchanged, in contrast
to RESIZE, FILTER and CROP, which return a parameters-required error when
their variant is absent. -/
theorem nil_params_transform_identity (img : Image) :
    processTransform img Option.none = .ok img ∧
    processResize img Option.none = .error "resize parameters required" ∧
    processFilter img Option.none = .error "filter parameters required" ∧
    processCrop img Option.none = .error "crop parameters required" :=
  ⟨rfl, rfl, rfl, rfl⟩

/-- C2: in every consume-loop iteration whose fetch succeeds, the fetched
message is committed exactly once, whatever the decode and processing
outcomes; in an iteration whose fetch fails, no commit is issued. This holds
for the current Handler.processNextMessage and for the older Consumer.Start
loop body. -/
theorem consume_loop_commits_once :
    (∀ (env : HandlerIterEnv) (msg : KafkaMessage),
        env.fetch = .ok msg → (processNextMessage env).commits = [msg]) ∧
    (∀ (env : HandlerIterEnv) (e : String),
        env.fetch = .error e → (processNextMessage env).commits = []) ∧
    (∀ (env : OldConsumerIterEnv) (msg : OldKafkaMessage),
        env.fetch = .ok msg → (oldConsumerIteration env).commits = [msg]) ∧
    (∀ (env : OldConsumerIterEnv) (e : String),
        env.fetch = .error e → (oldConsumerIteration env).commits = []) := by
  refine ⟨?_, ?_, ?_, ?_⟩
  · intro env msg h
    simp only [processNextMessage, h]
    split <;> rfl
  · intro env e h
    simp only [processNextMessage, h]
  · intro env msg h
    simp only [oldConsumerIteration, h]
    split
    · rfl
    · split <;> rfl
  · intro env e h
    simp only [oldConsumerIteration, h]

/-- Witness for C2 at concrete iterations: an undecodable payload is still
committed exactly once, and a failed fetch commits nothing. -/
theorem consume_loop_commits_once_witness :
    (processNextMessage
        ⟨.json, .ok ⟨0, 5, "k", ⟨Option.none, Option.none⟩⟩,
         some "processing failed", Option.none⟩).commits
      = [⟨0, 5, "k", ⟨Option.none, Option.none⟩⟩] ∧
    (processNextMessage
        ⟨.json, .error "broker unreachable", Option.none, Option.none⟩).commits
      = [] :=
  ⟨consume_loop_commits_once.1 _ _ rfl, consume_loop_commits_once.2.1 _ _ rfl⟩

/-- C3 counterexample: with preferred format protobuf and a payload neither
format can decode (for instance the single byte 0xFF, which is an invalid
protobuf message and invalid JSON), DecodeCommand returns the raw
`json.Unmarshal` error of the fallback, not the error "neither format
matched" (that wrapping error exists only in the preferred-JSON branch). -/
theorem decode_both_fail_error_cex :
    DecodeCommand .protobuf ⟨Option.none, Option.none⟩ = .error .jsonUnmarshal ∧
    DecodeError.jsonUnmarshal ≠ DecodeError.neitherFormat :=
  ⟨rfl, by decide⟩

/-- C3 amended: DecodeCommand tries the preferred format first and on any
decode error falls back to the other format, returning the first success;
when both formats fail it returns "neither JSON nor Protobuf" if the
preferred format is JSON, but the raw JSON-unmarshal error if the preferred
format is protobuf. With preferred=binary and a payload that is valid text
but invalid binary, decode succeeds via the text fallback. -/
theorem decode_fallback_amended (d : RawData) :
    (∀ c, d.protoParse = some c → DecodeCommand .protobuf d = .ok c) ∧
    (∀ jc, d.protoParse = Option.none → d.jsonParse = some jc →
        DecodeCommand .protobuf d = .ok (decodeJSONCmd jc)) ∧
    (∀ jc, d.jsonParse = some jc → DecodeCommand .json d = .ok (decodeJSONCmd jc)) ∧
    (∀ c, d.jsonParse = Option.none → d.protoParse = some c →
        DecodeCommand .json d = .ok c) ∧
    (d.jsonParse = Option.none → d.protoParse = Option.none →
        DecodeCommand .json d = .error .neitherFormat) ∧
    (d.jsonParse = Option.none → d.protoParse = Option.none →
        DecodeCommand .protobuf d = .error .jsonUnmarshal) := by
  obtain ⟨pp, jp⟩ := d
  refine ⟨?_, ?_, ?_, ?_, ?_, ?_⟩
  · intro c h
    subst h
    rfl
  · intro jc h1 h2
    subst h1
    subst h2
    rfl
  · intro jc h
    subst h
    rfl
  · intro c h1 h2
    subst h1
    subst h2
    rfl
  · intro h1 h2
    subst h1
    subst h2
    rfl
  · intro h1 h2
    subst h1
    subst h2
    rfl

/-- Witness for C3 amended: a payload that is valid text but invalid binary
decodes via the text fallback under preferred=binary, and a payload failing
both formats yields the two different errors. -/
theorem decode_fallback_amended_witness :
    DecodeCommand .protobuf
        ⟨Option.none, some ⟨"a", "resize", "http://img", Option.none⟩⟩
      = .ok (decodeJSONCmd ⟨"a", "resize", "http://img", Option.none⟩) ∧
    DecodeCommand .json ⟨Option.none, Option.none⟩ = .error .neitherFormat ∧
    DecodeCommand .protobuf ⟨Option.none, Option.none⟩ = .error .jsonUnmarshal :=
  ⟨(decode_fallback_amended _).2.1 _ rfl rfl,
   (decode_fallback_amended _).2.2.2.2.1 rfl rfl,
   (decode_fallback_amended _).2.2.2.2.2 rfl rfl⟩

/-- C9 counterexample: the binary decode path returns the deserialized
message as-is, and the protobuf wire format encodes the command enum and the
parameters oneof independently, so a binary payload carrying command RESIZE
together with the filter parameter variant decodes successfully to a command
whose type and parameter variant disagree. -/
theorem decode_consistency_cex :
    DecodeCommand .protobuf
        ⟨some ⟨"x", .resize, "http://img", .filter ⟨"blur", 1⟩⟩, Option.none⟩
      = .ok ⟨"x", .resize, "http://img", .filter ⟨"blur", 1⟩⟩ ∧
    consistentParams ⟨"x", .resize, "http://img", .filter ⟨"blur", 1⟩⟩ = false :=
  ⟨rfl, by decide⟩

/-- C9 amended: every command produced by the text/JSON decode path has its
type and active parameter variant consistent (the decoder sets them
together); the binary path offers no such guarantee, since it returns
whatever message the payload encodes. -/
theorem json_decode_consistent (jc : JsonCommand) :
    consistentParams (decodeJSONCmd jc) = true := by
  unfold decodeJSONCmd
  split <;> cases jc.parameters <;> simp [consistentParams]

/-- A concrete environment for the current processor used in closed
statements: the network is down, encoding and upload succeed. -/
def sampleEnv : ProcessEnv :=
  ⟨fun _ => .error "network unavailable", fun _ => .ok (), fun _ => .ok "s3://bucket/out.png"⟩

/-- A concrete environment for the older processor used in closed
statements. -/
def sampleOldEnv : ProcessOldEnv :=
  ⟨fun _ => .error "network unavailable", fun _ => .ok (), "out"⟩

/-- C1 counterexample: in the older usecase variant also cited by the claim,
Process on a command with empty id returns a nil ProcessingResult together
with the error, so no ProcessingResult with success=false and a non-empty
error_message is returned there. -/
theorem validation_nil_result_cex :
    (ProcessOld sampleOldEnv ⟨"", .resize, "http://img", CommandParams.none⟩).1
      = Option.none ∧
    (ProcessOld sampleOldEnv ⟨"", .resize, "http://img", CommandParams.none⟩).2.1
      = some "command ID is required" :=
  ⟨rfl, rfl⟩

/-- C1 amended: for every command with empty id or empty image_url, the
current Process returns a ProcessingResult with success=false and a
non-empty error_message together with a non-nil error, and the older variant
returns a nil result together with a non-nil error; in both variants the
precondition checks run before any image download is attempted. -/
theorem validate_before_download (env : ProcessEnv) (envOld : ProcessOldEnv)
    (cmd : ImageCommand) (h : cmd.id = "" ∨ cmd.imageUrl = "") :
    (Process env cmd).1.success = false ∧
    (Process env cmd).1.errorMessage ≠ "" ∧
    (Process env cmd).2.1.isSome = true ∧
    hasDownload (Process env cmd).2.2 = false ∧
    (ProcessOld envOld cmd).1 = Option.none ∧
    (ProcessOld envOld cmd).2.1.isSome = true ∧
    hasDownload (ProcessOld envOld cmd).2.2 = false := by
  by_cases hid : cmd.id = ""
  · refine ⟨?_, ?_, ?_, ?_, ?_, ?_, ?_⟩ <;>
      simp [Process, ProcessOld, hid, hasDownload]
  · have hurl : cmd.imageUrl = "" := h.resolve_left hid
    refine ⟨?_, ?_, ?_, ?_, ?_, ?_, ?_⟩ <;>
      simp [Process, ProcessOld, hid, hurl, hasDownload]

/-- Witness for C1 amended at a concrete command with empty id. -/
theorem validate_before_download_witness :
    (Process sampleEnv ⟨"", .resize, "http://img", CommandParams.none⟩).1.success
        = false ∧
    hasDownload (Process sampleEnv ⟨"", .resize, "http://img", CommandParams.none⟩).2.2
        = false ∧
    (ProcessOld sampleOldEnv ⟨"", .resize, "http://img", CommandParams.none⟩).1
        = Option.none :=
  have h := validate_before_download sampleEnv sampleOldEnv
    ⟨"", .resize, "http://img", CommandParams.none⟩ (Or.inl rfl)
  ⟨h.1, h.2.2.2.1, h.2.2.2.2.1⟩

/-- The common tail of Process emits exactly one processed-count metric, and
emits the duration metric exactly when it reaches full success. -/
theorem processFinish_metrics (env : ProcessEnv) (cmdId ct url : String)
    (base : ProcessingResult) (opResult : Except String Image) :
    countProcessed (processFinish env cmdId ct url base opResult).2.2 = 1 ∧
    countDuration (processFinish env cmdId ct url base opResult).2.2 =
      (if (processFinish env cmdId ct url base opResult).1.success = true
       then 1 else 0) := by
  unfold processFinish
  cases opResult with
  | error e => simp [countProcessed, countDuration]
  | ok img =>
    cases henc : env.encodePNG img with
    | error e => simp [countProcessed, countDuration, henc]
    | ok u =>
      cases hup : env.upload (cmdId ++ ".png") with
      | error e => simp [countProcessed, countDuration, henc, hup]
      | ok outUrl => simp [countProcessed, countDuration, henc, hup]

/-- C7 counterexample: a Process call failing validation emits the
processed-count observation but no duration observation, so it is not the
case that every call emits exactly one of each. -/
theorem metrics_once_cex :
    countProcessed (Process sampleEnv ⟨"", .resize, "http://img", CommandParams.none⟩).2.2
      = 1 ∧
    countDuration (Process sampleEnv ⟨"", .resize, "http://img", CommandParams.none⟩).2.2
      = 0 :=
  ⟨rfl, rfl⟩

/-- C7 amended: every Process call emits exactly one processed-count
observation tagged with the command type and outcome; the duration
observation is emitted exactly once on the fully successful
store-and-upload path and on no other path (in particular not on
validation, download, operation, encode or upload failures, and not on the
ANALYZE success path). -/
theorem metrics_per_process_call (env : ProcessEnv) (cmd : ImageCommand) :
    countProcessed (Process env cmd).2.2 = 1 ∧
    countDuration (Process env cmd).2.2 =
      (if (Process env cmd).1.success = true ∧ cmd.command ≠ .analyze
       then 1 else 0) := by
  by_cases hid : cmd.id = ""
  · simp [Process, hid, countProcessed, countDuration]
  · by_cases hurl : cmd.imageUrl = ""
    · simp [Process, hid, hurl, countProcessed, countDuration]
    · by_cases han : cmd.command = .analyze
      · cases hdl : env.download cmd.imageUrl with
        | error e => simp [Process, hid, hurl, han, hdl, countProcessed, countDuration]
        | ok img => simp [Process, hid, hurl, han, hdl, countProcessed, countDuration]
      · cases hdl : env.download cmd.imageUrl with
        | error e => simp [Process, hid, hurl, han, hdl, countProcessed, countDuration]
        | ok img =>
          have hfin := processFinish_metrics env cmd.id (commandTypeString cmd.command)
            cmd.imageUrl ⟨cmd.id, false, "", "", 0⟩
            (match cmd.command with
             | .resize => processResize img cmd.getResize
             | .filter => processFilter img cmd.getFilter
             | .transform => processTransform img cmd.getTransform
             | .crop => processCrop img cmd.getCrop
             | .removeBackground => .ok (.grayscaled img)
             | _ => .error ("unknown command type: " ++ commandTypeString cmd.command))
          simp only [Process, hid, hurl, han, hdl, if_neg, ite_false]
          simpa [han] using hfin

/-- Truncation toward zero is the identity on integers. -/
theorem truncToInt_intCast (n : Int) : truncToInt (n : ℚ) = n := by
  unfold truncToInt
  by_cases h : (n : ℚ) < 0
  · rw [if_pos h]
    rw [show (-(n : ℚ)) = ((-n : Int) : ℚ) by push_cast; ring]
    rw [Int.floor_intCast]
    ring
  · rw [if_neg h, Int.floor_intCast]

/-- C4 counterexample: a consistent TRANSFORM command with
flip_horizontal=true loses its flip on the text round trip, because the
producer encoder writes only rotation_degrees for the transform variant. -/
theorem round_trip_cex :
    roundTrip ⟨"t1", .transform, "http://img", .transform ⟨0, true, false⟩⟩
      = ⟨"t1", .transform, "http://img", .transform ⟨0, false, false⟩⟩ ∧
    CommandParams.transform ⟨0, true, false⟩ ≠ .transform ⟨0, false, false⟩ := by
  constructor
  · rfl
  · decide

/-- C4 amended: the text round trip preserves id, image_url and type for
every consistent command; FILTER and CROP parameter fields are preserved
exactly; RESIZE keeps width and height but maintain_aspect_ratio decodes as
false; TRANSFORM keeps rotation_degrees but both flips decode as false;
ANALYZE and REMOVE_BACKGROUND parameters are not encoded at all, so the
decoded command carries no parameter variant. -/
theorem round_trip_amended (c : ImageCommand) (h : consistentParams c = true) :
    (roundTrip c).id = c.id ∧
    (roundTrip c).imageUrl = c.imageUrl ∧
    (roundTrip c).command = c.command ∧
    (∀ p, c.parameters = .filter p → (roundTrip c).parameters = .filter p) ∧
    (∀ p, c.parameters = .crop p → (roundTrip c).parameters = .crop p) ∧
    (∀ p, c.parameters = .resize p →
        (roundTrip c).parameters = .resize ⟨p.width, p.height, false⟩) ∧
    (∀ p, c.parameters = .transform p →
        (roundTrip c).parameters = .transform ⟨p.rotationDegrees, false, false⟩) ∧
    (∀ p, c.parameters = .analyze p → (roundTrip c).parameters = .none) ∧
    (∀ p, c.parameters = .removeBackground p → (roundTrip c).parameters = .none) ∧
    (c.parameters = .none → (roundTrip c).parameters = .none) := by
  obtain ⟨cid, cc, curl, cp⟩ := c
  cases cp with
  | none =>
    refine ⟨?_, ?_, ?_, ?_, ?_, ?_, ?_, ?_, ?_, ?_⟩ <;>
      cases cc <;>
        simp [roundTrip, encodeJSON, decodeJSONCmd, commandTypeToString]
  | resize p =>
    have hcc : cc = .resize := by
      simpa [consistentParams] using h
    subst hcc
    refine ⟨?_, ?_, ?_, ?_, ?_, ?_, ?_, ?_, ?_, ?_⟩ <;>
      simp [roundTrip, encodeJSON, decodeJSONCmd, commandTypeToString, lookupKey,
        asFloat, truncToInt_intCast]
  | filter p =>
    have hcc : cc = .filter := by
      simpa [consistentParams] using h
    subst hcc
    refine ⟨?_, ?_, ?_, ?_, ?_, ?_, ?_, ?_, ?_, ?_⟩ <;>
      simp [roundTrip, encodeJSON, decodeJSONCmd, commandTypeToString, lookupKey,
        asFloat, asString]
  | transform p =>
    have hcc : cc = .transform := by
      simpa [consistentParams] using h
    subst hcc
    refine ⟨?_, ?_, ?_, ?_, ?_, ?_, ?_, ?_, ?_, ?_⟩ <;>
      simp [roundTrip, encodeJSON, decodeJSONCmd, commandTypeToString, lookupKey,
        asFloat, asBool]
  | analyze p =>
    have hcc : cc = .analyze := by
      simpa [consistentParams] using h
    subst hcc
    refine ⟨?_, ?_, ?_, ?_, ?_, ?_, ?_, ?_, ?_, ?_⟩ <;>
      simp [roundTrip, encodeJSON, decodeJSONCmd, commandTypeToString]
  | crop p =>
    have hcc : cc = .crop := by
      simpa [consistentParams] using h
    subst hcc
    refine ⟨?_, ?_, ?_, ?_, ?_, ?_, ?_, ?_, ?_, ?_⟩ <;>
      simp [roundTrip, encodeJSON, decodeJSONCmd, commandTypeToString, lookupKey,
        asFloat, truncToInt_intCast]
  | removeBackground p =>
    have hcc : cc = .removeBackground := by
      simpa [consistentParams] using h
    subst hcc
    refine ⟨?_, ?_, ?_, ?_, ?_, ?_, ?_, ?_, ?_, ?_⟩ <;>
      simp [roundTrip, encodeJSON, decodeJSONCmd, commandTypeToString]

/-- Witness for C4 amended at a concrete consistent CROP command: every crop
field survives the round trip. -/
theorem round_trip_amended_witness :
    (roundTrip ⟨"c1", .crop, "http://img", .crop ⟨1, 2, 30, 40⟩⟩).parameters
      = .crop ⟨1, 2, 30, 40⟩ :=
  (round_trip_amended ⟨"c1", .crop, "http://img", .crop ⟨1, 2, 30, 40⟩⟩
      (by decide)).2.2.2.2.1 ⟨1, 2, 30, 40⟩ rfl

/-- A concrete environment whose download succeeds with a 10x10 source
image. -/
def sampleEnvOk : ProcessEnv :=
  ⟨fun _ => .ok (.source 10 10), fun _ => .ok (), fun _ => .ok "s3://bucket/out.png"⟩

/-- C5: a CROP command errors when CropParams are absent or width/height are
nonpositive; a region outside the source bounds fails with "crop region out
of bounds" before any cropping, and at the Process level such a command
produces a failed result and stores no artifact; an in-bounds region yields
an output with exactly the requested dimensions. -/
theorem crop_semantics :
    (∀ img, processCrop img Option.none = .error "crop parameters required") ∧
    (∀ img (p : CropParameters), p.width ≤ 0 ∨ p.height ≤ 0 →
        processCrop img (some p) = .error "crop width and height must be positive") ∧
    (∀ img (p : CropParameters), 0 < p.width → 0 < p.height →
        p.x < 0 ∨ p.y < 0 ∨ p.x + p.width > img.width ∨ p.y + p.height > img.height →
        processCrop img (some p) = .error "crop region out of bounds") ∧
    (∀ (env : ProcessEnv) (cmd : ImageCommand) (img : Image) (p : CropParameters),
        cmd.parameters = .crop p → cmd.command = .crop →
        cmd.id ≠ "" → cmd.imageUrl ≠ "" →
        env.download cmd.imageUrl = .ok img →
        0 < p.width → 0 < p.height →
        p.x < 0 ∨ p.y < 0 ∨ p.x + p.width > img.width ∨ p.y + p.height > img.height →
        (Process env cmd).1.success = false ∧
        (Process env cmd).1.errorMessage = "crop region out of bounds" ∧
        storesArtifact (Process env cmd).2.2 = false) ∧
    (∀ img (p : CropParameters), 0 < p.width → 0 < p.height →
        0 ≤ p.x → 0 ≤ p.y →
        p.x + p.width ≤ img.width → p.y + p.height ≤ img.height →
        ∃ out, processCrop img (some p) = .ok out ∧
          out.width = p.width ∧ out.height = p.height) := by
  have hbound : ∀ (img : Image) (p : CropParameters), 0 < p.width → 0 < p.height →
      p.x < 0 ∨ p.y < 0 ∨ p.x + p.width > img.width ∨ p.y + p.height > img.height →
      processCrop img (some p) = .error "crop region out of bounds" := by
    intro img p hw hh hb
    simp only [processCrop]
    rw [if_neg (by omega), if_pos hb]
  refine ⟨fun img => rfl, ?_, hbound, ?_, ?_⟩
  · intro img p hp
    simp only [processCrop]
    rw [if_pos hp]
  · intro env cmd img p hcp hcc hid hurl hdl hw hh hb
    have hget : cmd.getCrop = some p := by
      simp [ImageCommand.getCrop, hcp]
    have hcrop := hbound img p hw hh hb
    refine ⟨?_, ?_, ?_⟩ <;>
      simp [Process, processFinish, hid, hurl, hdl, hcc, hget, hcrop, storesArtifact]
  · intro img p hw hh hx hy hxw hyh
    refine ⟨.cropped img p.x p.y p.width p.height, ?_, ?_, ?_⟩
    · simp only [processCrop]
      rw [if_neg (by omega), if_neg (by omega)]
    · have hxw' : p.x + p.width ≤ img.dims.1 := hxw
      have hyh' : p.y + p.height ≤ img.dims.2 := hyh
      simp only [Image.width, Image.dims, cropDims]
      rw [max_eq_left hx, max_eq_left hy, min_eq_left hxw', min_eq_left hyh',
        if_pos ⟨by omega, by omega⟩]
      omega
    · have hxw' : p.x + p.width ≤ img.dims.1 := hxw
      have hyh' : p.y + p.height ≤ img.dims.2 := hyh
      simp only [Image.height, Image.dims, cropDims]
      rw [max_eq_left hx, max_eq_left hy, min_eq_left hxw', min_eq_left hyh',
        if_pos ⟨by omega, by omega⟩]
      omega

/-- Witness for C5 at concrete inputs on a 10x10 source: the region
(7,0)+(4,5) overruns the right edge, fails with the bounds error at the
Process level and stores nothing; the region (2,3)+(4,5) is in bounds and
crops to exactly 4x5. -/
theorem crop_semantics_witness :
    ((Process sampleEnvOk ⟨"c2", .crop, "http://img", .crop ⟨7, 0, 4, 5⟩⟩).1.success
        = false ∧
     (Process sampleEnvOk ⟨"c2", .crop, "http://img", .crop ⟨7, 0, 4, 5⟩⟩).1.errorMessage
        = "crop region out of bounds" ∧
     storesArtifact
        (Process sampleEnvOk ⟨"c2", .crop, "http://img", .crop ⟨7, 0, 4, 5⟩⟩).2.2
        = false) ∧
    (∃ out, processCrop (.source 10 10) (some ⟨2, 3, 4, 5⟩) = .ok out ∧
        out.width = 4 ∧ out.height = 5) :=
  ⟨crop_semantics.2.2.2.1 sampleEnvOk ⟨"c2", .crop, "http://img", .crop ⟨7, 0, 4, 5⟩⟩
      (.source 10 10) ⟨7, 0, 4, 5⟩ rfl rfl (by decide) (by decide) rfl
      (by decide) (by decide) (by decide),
   crop_semantics.2.2.2.2 (.source 10 10) ⟨2, 3, 4, 5⟩
      (by decide) (by decide) (by decide) (by decide) (by decide) (by decide)⟩

/-- C8: in both usecase variants the brightness/contrast/saturation
intensity-to-adjustment mapping is strictly monotonically increasing and
linear (affine: it maps midpoints to midpoints), and maps intensity 1/2 to
exactly 0; a nonpositive intensity is replaced by the default 1 before the
mapping is applied in all three filter branches of both variants. -/
theorem filter_intensity_mapping :
    (∀ a b : ℚ, a < b → filterAdjustment a < filterAdjustment b) ∧
    (∀ a b : ℚ, a < b → filterAdjustmentOld a < filterAdjustmentOld b) ∧
    filterAdjustment (1/2) = 0 ∧
    filterAdjustmentOld (1/2) = 0 ∧
    (∀ a b : ℚ,
        filterAdjustment ((a + b) / 2) = (filterAdjustment a + filterAdjustment b) / 2) ∧
    (∀ a b : ℚ,
        filterAdjustmentOld ((a + b) / 2)
          = (filterAdjustmentOld a + filterAdjustmentOld b) / 2) ∧
    (∀ (img : Image) (i : ℚ),
        processFilter img (some ⟨"brightness", i⟩)
          = .ok (.brightnessAdjusted img (filterAdjustment (if i ≤ 0 then 1 else i))) ∧
        processFilter img (some ⟨"contrast", i⟩)
          = .ok (.contrastAdjusted img (filterAdjustment (if i ≤ 0 then 1 else i))) ∧
        processFilter img (some ⟨"saturation", i⟩)
          = .ok (.saturationAdjusted img (filterAdjustment (if i ≤ 0 then 1 else i))) ∧
        processFilterOld img (some ⟨"brightness", i⟩)
          = .ok (.brightnessAdjusted img (filterAdjustmentOld (if i ≤ 0 then 1 else i))) ∧
        processFilterOld img (some ⟨"contrast", i⟩)
          = .ok (.contrastAdjusted img (filterAdjustmentOld (if i ≤ 0 then 1 else i))) ∧
        processFilterOld img (some ⟨"saturation", i⟩)
          = .ok (.saturationAdjusted img (filterAdjustmentOld (if i ≤ 0 then 1 else i)))) := by
  refine ⟨?_, ?_, ?_, ?_, ?_, ?_, ?_⟩
  · intro a b h
    unfold filterAdjustment
    linarith
  · intro a b h
    unfold filterAdjustmentOld
    linarith
  · norm_num [filterAdjustment]
  · norm_num [filterAdjustmentOld]
  · intro a b
    unfold filterAdjustment
    ring
  · intro a b
    unfold filterAdjustmentOld
    ring
  · intro img i
    exact ⟨rfl, rfl, rfl, rfl, rfl, rfl⟩

/-- Witness for C8 at concrete intensities: strict monotonicity between 1/4
and 3/4 in both variants, and the default replacement of a negative
intensity on the current brightness path. -/
theorem filter_intensity_mapping_witness :
    filterAdjustment (1/4) < filterAdjustment (3/4) ∧
    filterAdjustmentOld (1/4) < filterAdjustmentOld (3/4) ∧
    processFilter (.source 2 3) (some ⟨"brightness", -2⟩)
      = .ok (.brightnessAdjusted (.source 2 3) (filterAdjustment 1)) := by
  refine ⟨filter_intensity_mapping.1 _ _ (by norm_num),
          filter_intensity_mapping.2.1 _ _ (by norm_num), ?_⟩
  have h := (filter_intensity_mapping.2.2.2.2.2.2 (.source 2 3) (-2)).1
  rw [if_pos (by norm_num : (-2 : ℚ) ≤ 0)] at h
  exact h

/-- The round-half-up-then-clamp of a positive rational is within 1 of it. -/
theorem roundAtLeastOne_sub_le (t : ℚ) (ht : 0 < t) :
    |((roundAtLeastOne t : Int) : ℚ) - t| ≤ 1 := by
  have hle : ((Int.floor (t + 1/2) : Int) : ℚ) ≤ t + 1/2 := Int.floor_le _
  have hlt : t + 1/2 < ((Int.floor (t + 1/2) : Int) : ℚ) + 1 := Int.lt_floor_add_one _
  unfold roundAtLeastOne
  rcases le_or_lt (Int.floor (t + 1/2)) 0 with h0 | h1
  · rw [max_eq_left (le_trans h0 (by norm_num))]
    have h0q : ((Int.floor (t + 1/2) : Int) : ℚ) ≤ 0 := by exact_mod_cast h0
    rw [abs_le]
    constructor <;> push_cast <;> linarith
  · rw [max_eq_right (by omega : (1 : ℤ) ≤ Int.floor (t + 1/2))]
    rw [abs_le]
    constructor <;> linarith

/-- The round-half-up-then-clamp of a rational strictly between 0 and 1
is exactly 1. -/
theorem roundAtLeastOne_eq_one (t : ℚ) (h0 : 0 < t) (h1 : t < 1) :
    roundAtLeastOne t = 1 := by
  unfold roundAtLeastOne
  have hlt2 : Int.floor (t + 1/2) < 2 := Int.floor_lt.mpr (by push_cast; linarith)
  exact max_eq_left (by omega)

/-- Scaling the clamped rounding of A/B back by B stays within B of A. -/
theorem scaled_round_close (A B : Int) (hA : 0 < A) (hB : 0 < B) :
    |roundAtLeastOne ((A : ℚ) / (B : ℚ)) * B - A| ≤ B := by
  have hBq : (0 : ℚ) < (B : ℚ) := by exact_mod_cast hB
  have hAq : (0 : ℚ) < (A : ℚ) := by exact_mod_cast hA
  have ht : (0 : ℚ) < (A : ℚ) / (B : ℚ) := div_pos hAq hBq
  have h1 := roundAtLeastOne_sub_le _ ht
  have key : |((roundAtLeastOne ((A : ℚ) / (B : ℚ)) : Int) : ℚ) * B - A| ≤ (B : ℚ) := by
    have heq : ((roundAtLeastOne ((A : ℚ) / (B : ℚ)) : Int) : ℚ) * B - A
        = (((roundAtLeastOne ((A : ℚ) / (B : ℚ)) : Int) : ℚ) - (A : ℚ) / (B : ℚ)) * B := by
      field_simp
    rw [heq, abs_mul, abs_of_pos hBq]
    calc |((roundAtLeastOne ((A : ℚ) / (B : ℚ)) : Int) : ℚ) - (A : ℚ) / (B : ℚ)| * B
        ≤ 1 * B := mul_le_mul_of_nonneg_right h1 (le_of_lt hBq)
      _ = B := one_mul _
  exact_mod_cast key

/-- Scaling the floor of A/B back by B stays within B of A. -/
theorem scaled_floor_close (A B : Int) (hB : 0 < B) :
    |Int.floor ((A : ℚ) / (B : ℚ)) * B - A| ≤ B := by
  have hBq : (0 : ℚ) < (B : ℚ) := by exact_mod_cast hB
  have hfl : ((Int.floor ((A : ℚ) / (B : ℚ)) : Int) : ℚ) ≤ (A : ℚ) / (B : ℚ) :=
    Int.floor_le _
  have hfu : (A : ℚ) / (B : ℚ) < ((Int.floor ((A : ℚ) / (B : ℚ)) : Int) : ℚ) + 1 :=
    Int.lt_floor_add_one _
  have key : |((Int.floor ((A : ℚ) / (B : ℚ)) : Int) : ℚ) * B - A| ≤ (B : ℚ) := by
    have heq : ((Int.floor ((A : ℚ) / (B : ℚ)) : Int) : ℚ) * B - A
        = (((Int.floor ((A : ℚ) / (B : ℚ)) : Int) : ℚ) - (A : ℚ) / (B : ℚ)) * B := by
      field_simp
    rw [heq, abs_mul, abs_of_pos hBq]
    have habs : |((Int.floor ((A : ℚ) / (B : ℚ)) : Int) : ℚ) - (A : ℚ) / (B : ℚ)| ≤ 1 :=
      abs_le.mpr ⟨by linarith, by linarith⟩
    calc |((Int.floor ((A : ℚ) / (B : ℚ)) : Int) : ℚ) - (A : ℚ) / (B : ℚ)| * B
        ≤ 1 * B := mul_le_mul_of_nonneg_right habs (le_of_lt hBq)
      _ = B := one_mul _
  exact_mod_cast key

/-- imaging.Resize with two positive target dimensions is exact. -/
theorem resizeDims_pos (sw sh w h : Int) (hsw : 0 < sw) (hsh : 0 < sh)
    (hw : 0 < w) (hh : 0 < h) : resizeDims (sw, sh) w h = (w, h) := by
  unfold resizeDims
  dsimp only
  rw [if_neg (by omega), if_neg (by omega), if_neg (by omega),
    if_neg (by omega), if_neg (by omega)]

/-- imaging.Resize with target width 0 recomputes the width from the source
aspect ratio. -/
theorem resizeDims_w0 (sw sh h : Int) (hsw : 0 < sw) (hsh : 0 < sh)
    (hh : 0 < h) :
    resizeDims (sw, sh) 0 h
      = (roundAtLeastOne (((h * sw : Int) : ℚ) / (sh : ℚ)), h) := by
  unfold resizeDims
  dsimp only
  rw [if_neg (by omega), if_neg (by omega), if_neg (by omega),
    if_pos rfl, if_neg (by omega)]

/-- imaging.Resize with target height 0 recomputes the height from the
source aspect ratio. -/
theorem resizeDims_h0 (sw sh w : Int) (hsw : 0 < sw) (hsh : 0 < sh)
    (hw : 0 < w) :
    resizeDims (sw, sh) w 0
      = (w, roundAtLeastOne (((w * sh : Int) : ℚ) / (sw : ℚ))) := by
  unfold resizeDims
  dsimp only
  rw [if_neg (by omega), if_neg (by omega), if_neg (by omega),
    if_neg (by omega), if_pos rfl]

/-- imaging.Fit with positive source and target dimensions: the output keeps
the source aspect ratio up to rounding (cross-multiplied error at most
sw + sh) and fits within the requested bounds. -/
theorem fitDims_bounds (sw sh w h : Int) (hsw : 0 < sw) (hsh : 0 < sh)
    (hw : 0 < w) (hh : 0 < h) :
    |(fitDims (sw, sh) w h).1 * sh - sw * (fitDims (sw, sh) w h).2| ≤ sw + sh ∧
    (fitDims (sw, sh) w h).1 ≤ w ∧ (fitDims (sw, sh) w h).2 ≤ h := by
  have hswq : (0 : ℚ) < (sw : ℚ) := by exact_mod_cast hsw
  have hshq : (0 : ℚ) < (sh : ℚ) := by exact_mod_cast hsh
  have hwq : (0 : ℚ) < (w : ℚ) := by exact_mod_cast hw
  have hhq : (0 : ℚ) < (h : ℚ) := by exact_mod_cast hh
  unfold fitDims
  dsimp only
  rw [if_neg (by omega), if_neg (by omega)]
  by_cases hfits : sw ≤ w ∧ sh ≤ h
  · rw [if_pos hfits]
    dsimp only
    refine ⟨?_, hfits.1, hfits.2⟩
    have : sw * sh - sw * sh = 0 := by ring
    rw [this, abs_zero]
    omega
  · rw [if_neg hfits]
    by_cases hasp : (sw : ℚ) / (sh : ℚ) > (w : ℚ) / (h : ℚ)
    · rw [if_pos hasp]
      have hcross : (w : ℚ) * sh < (sw : ℚ) * h :=
        (div_lt_div_iff₀ hhq hshq).mp hasp
      have hfh : Int.floor (((w * sh : Int) : ℚ) / (sw : ℚ)) < h := by
        apply Int.floor_lt.mpr
        rw [div_lt_iff₀ hswq]
        push_cast
        linarith
      have hf0 : 0 ≤ Int.floor (((w * sh : Int) : ℚ) / (sw : ℚ)) := by
        apply Int.floor_nonneg.mpr
        apply div_nonneg _ (le_of_lt hswq)
        have : (0 : ℚ) ≤ ((w * sh : Int) : ℚ) := by
          exact_mod_cast le_of_lt (mul_pos hw hsh)
        exact this
      rcases lt_or_eq_of_le hf0 with hfpos | hfzero
      · rw [resizeDims_pos sw sh w _ hsw hsh hw hfpos]
        dsimp only
        refine ⟨?_, le_refl w, by omega⟩
        have hb := scaled_floor_close (w * sh) sw hsw
        have heq : w * sh - sw * Int.floor (((w * sh : Int) : ℚ) / (sw : ℚ))
            = -(Int.floor (((w * sh : Int) : ℚ) / (sw : ℚ)) * sw - w * sh) := by ring
        rw [heq, abs_neg]
        linarith
      · rw [← hfzero, resizeDims_h0 sw sh w hsw hsh hw]
        dsimp only
        have ht0 : (0 : ℚ) < ((w * sh : Int) : ℚ) / (sw : ℚ) := by
          apply div_pos _ hswq
          exact_mod_cast mul_pos hw hsh
        have ht1 : ((w * sh : Int) : ℚ) / (sw : ℚ) < 1 := by
          have := Int.lt_floor_add_one (((w * sh : Int) : ℚ) / (sw : ℚ))
          rw [← hfzero] at this
          push_cast at this ⊢
          linarith
        rw [roundAtLeastOne_eq_one _ ht0 ht1]
        refine ⟨?_, le_refl w, by omega⟩
        have hb := scaled_round_close (w * sh) sw (mul_pos hw hsh) hsw
        rw [roundAtLeastOne_eq_one _ ht0 ht1] at hb
        have heq : w * sh - sw * 1 = -(1 * sw - w * sh) := by ring
        rw [heq, abs_neg]
        linarith
    · rw [if_neg hasp]
      have hcross : (sw : ℚ) * h ≤ (w : ℚ) * sh := by
        have : (sw : ℚ) / (sh : ℚ) ≤ (w : ℚ) / (h : ℚ) := le_of_not_lt hasp
        exact (div_le_div_iff₀ hshq hhq).mp this
      have hgw : Int.floor (((h * sw : Int) : ℚ) / (sh : ℚ)) ≤ w := by
        have hle : ((h * sw : Int) : ℚ) / (sh : ℚ) ≤ ((w : Int) : ℚ) := by
          rw [div_le_iff₀ hshq]
          push_cast
          linarith
        calc Int.floor (((h * sw : Int) : ℚ) / (sh : ℚ))
            ≤ Int.floor ((w : ℚ)) := Int.floor_le_floor hle
          _ = w := Int.floor_intCast w
      have hg0 : 0 ≤ Int.floor (((h * sw : Int) : ℚ) / (sh : ℚ)) := by
        apply Int.floor_nonneg.mpr
        apply div_nonneg _ (le_of_lt hshq)
        have : (0 : ℚ) ≤ ((h * sw : Int) : ℚ) := by
          exact_mod_cast le_of_lt (mul_pos hh hsw)
        exact this
      rcases lt_or_eq_of_le hg0 with hgpos | hgzero
      · rw [resizeDims_pos sw sh _ h hsw hsh hgpos hh]
        dsimp only
        refine ⟨?_, hgw, le_refl h⟩
        have hb := scaled_floor_close (h * sw) sh hsh
        have heq : Int.floor (((h * sw : Int) : ℚ) / (sh : ℚ)) * sh - sw * h
            = Int.floor (((h * sw : Int) : ℚ) / (sh : ℚ)) * sh - h * sw := by ring
        rw [heq]
        linarith
      · rw [← hgzero, resizeDims_w0 sw sh h hsw hsh hh]
        dsimp only
        have ht0 : (0 : ℚ) < ((h * sw : Int) : ℚ) / (sh : ℚ) := by
          apply div_pos _ hshq
          exact_mod_cast mul_pos hh hsw
        have ht1 : ((h * sw : Int) : ℚ) / (sh : ℚ) < 1 := by
          have := Int.lt_floor_add_one (((h * sw : Int) : ℚ) / (sh : ℚ))
          rw [← hgzero] at this
          push_cast at this ⊢
          linarith
        rw [roundAtLeastOne_eq_one _ ht0 ht1]
        refine ⟨?_, by omega, le_refl h⟩
        have hb := scaled_round_close (h * sw) sh (mul_pos hh hsw) hsh
        rw [roundAtLeastOne_eq_one _ ht0 ht1] at hb
        have heq : (1 : Int) * sh - sw * h = 1 * sh - h * sw := by ring
        rw [heq]
        linarith

/-- C6: a RESIZE command errors when ResizeParams are absent; when both
dimensions are nonpositive it errors with the positive-dimension message;
when maintain_aspect_ratio is set or either dimension is zero the output
preserves the source aspect ratio up to rounding (cross-multiplied deviation
at most source width + source height), fitting within the requested bounds
when both dimensions are given and ratio is requested; otherwise, for
positive width and height without ratio, the output has exactly the
requested dimensions. -/
theorem resize_semantics :
    (∀ img, processResize img Option.none = .error "resize parameters required") ∧
    (∀ img (p : ResizeParameters), p.width ≤ 0 ∧ p.height ≤ 0 →
        processResize img (some p)
          = .error "at least one of width or height must be positive") ∧
    (∀ img (p : ResizeParameters), 0 < img.width → 0 < img.height →
        0 ≤ p.width → 0 ≤ p.height → ¬(p.width ≤ 0 ∧ p.height ≤ 0) →
        (p.maintainAspect = true ∨ p.width = 0 ∨ p.height = 0) →
        ∃ out, processResize img (some p) = .ok out ∧
          |out.width * img.height - img.width * out.height|
            ≤ img.width + img.height ∧
          (p.maintainAspect = true → 0 < p.width → 0 < p.height →
            out.width ≤ p.width ∧ out.height ≤ p.height)) ∧
    (∀ img (p : ResizeParameters), 0 < img.width → 0 < img.height →
        0 < p.width → 0 < p.height → p.maintainAspect = false →
        ∃ out, processResize img (some p) = .ok out ∧
          out.width = p.width ∧ out.height = p.height) := by
  refine ⟨fun img => rfl, ?_, ?_, ?_⟩
  · intro img p hp
    simp only [processResize]
    rw [if_pos hp]
  · intro img p hsw hsh hw hh hnb hbr
    rcases hdims : img.dims with ⟨sw, sh⟩
    have hsw' : 0 < sw := by simpa [Image.width, hdims] using hsw
    have hsh' : 0 < sh := by simpa [Image.height, hdims] using hsh
    by_cases hw0 : p.width = 0
    · have hhpos : 0 < p.height := by omega
      refine ⟨.resized img 0 p.height, ?_, ?_, ?_⟩
      · simp only [processResize]
        rw [if_neg (by omega), if_pos (Or.inr (Or.inl hw0)), if_pos hw0]
      · simp only [Image.width, Image.height, Image.dims, hdims]
        rw [resizeDims_w0 sw sh p.height hsw' hsh' hhpos]
        dsimp only
        have hb := scaled_round_close (p.height * sw) sh (mul_pos hhpos hsw') hsh'
        rw [mul_comm sw p.height]
        linarith
      · intro _ hwp _
        exact absurd hwp (by omega)
    · by_cases hh0 : p.height = 0
      · have hwpos : 0 < p.width := by omega
        refine ⟨.resized img p.width 0, ?_, ?_, ?_⟩
        · simp only [processResize]
          rw [if_neg (by omega), if_pos (Or.inr (Or.inr hh0)), if_neg hw0, if_pos hh0]
        · simp only [Image.width, Image.height, Image.dims, hdims]
          rw [resizeDims_h0 sw sh p.width hsw' hsh' hwpos]
          dsimp only
          have hb := scaled_round_close (p.width * sh) sw (mul_pos hwpos hsh') hsw'
          have heq : p.width * sh - sw * roundAtLeastOne (((p.width * sh : Int) : ℚ) / (sw : ℚ))
              = -(roundAtLeastOne (((p.width * sh : Int) : ℚ) / (sw : ℚ)) * sw - p.width * sh) := by
            ring
          rw [heq, abs_neg]
          linarith
        · intro _ _ hhp
          exact absurd hhp (by omega)
      · have hwpos : 0 < p.width := by omega
        have hhpos : 0 < p.height := by omega
        have hm : p.maintainAspect = true := by
          rcases hbr with hm | h0 | h0
          · exact hm
          · exact absurd h0 hw0
          · exact absurd h0 hh0
        have hfb := fitDims_bounds sw sh p.width p.height hsw' hsh' hwpos hhpos
        refine ⟨.fitted img p.width p.height, ?_, ?_, ?_⟩
        · simp only [processResize]
          rw [if_neg (by omega), if_pos (Or.inl hm), if_neg hw0, if_neg hh0]
        · simp only [Image.width, Image.height, Image.dims, hdims]
          exact hfb.1
        · intro _ _ _
          simp only [Image.width, Image.height, Image.dims, hdims]
          exact ⟨hfb.2.1, hfb.2.2⟩
  · intro img p hsw hsh hwp hhp hm
    rcases hdims : img.dims with ⟨sw, sh⟩
    have hsw' : 0 < sw := by simpa [Image.width, hdims] using hsw
    have hsh' : 0 < sh := by simpa [Image.height, hdims] using hsh
    refine ⟨.resized img p.width p.height, ?_, ?_, ?_⟩
    · simp only [processResize]
      rw [if_neg (by omega), if_neg (by simp [hm]; omega)]
    · simp only [Image.width, Image.dims, hdims]
      rw [resizeDims_pos sw sh p.width p.height hsw' hsh' hwp hhp]
    · simp only [Image.height, Image.dims, hdims]
      rw [resizeDims_pos sw sh p.width p.height hsw' hsh' hwp hhp]

/-- Witness for C6 at concrete inputs on a 200x100 source: requesting
width=100 with height=0 takes the aspect-preserving path (the output is
100x50, within the stated rounding bound), and requesting 50x60 without
ratio resizes to exactly 50x60. -/
theorem resize_semantics_witness :
    (∃ out, processResize (.source 200 100) (some ⟨100, 0, false⟩) = .ok out ∧
        |out.width * (Image.source 200 100).height
            - (Image.source 200 100).width * out.height|
          ≤ (Image.source 200 100).width + (Image.source 200 100).height ∧
        ((false = true) → 0 < (100 : Int) → 0 < (0 : Int) →
          out.width ≤ 100 ∧ out.height ≤ 0)) ∧
    (∃ out, processResize (.source 200 100) (some ⟨50, 60, false⟩) = .ok out ∧
        out.width = 50 ∧ out.height = 60) :=
  ⟨resize_semantics.2.2.1 (.source 200 100) ⟨100, 0, false⟩
      (by decide) (by decide) (by decide) (by decide) (by decide)
      (Or.inr (Or.inr rfl)),
   resize_semantics.2.2.2 (.source 200 100) ⟨50, 60, false⟩
      (by decide) (by decide) (by decide) (by decide) rfl⟩

end KafkaConsumer
